import Mathlib

/-!
Verification development for the dialogue core of the Distill plugin
(interpretation alignment, draft-critique refinement, response
classification, resilient request layer, orchestrator).

The repository ships two revisions of several dialogue files, separated by a
document marker; the later revision (strict prefix classification backed by
the constants module, transcript-carrying refinement loop, retrying
OpenRouter client) is the one the remaining modules import and is embedded
here.  JS strings are modelled as lists of characters; JS string methods
(trim, toUpperCase, startsWith, slice, lastIndexOf, split, replace and the
two regular expressions used by the parser) are translated below.
toUpperCase is modelled on the ASCII range, which covers every keyword and
classified response the code compares against.
-/

/-- JS strings are modelled as lists of characters. -/
abbrev Str := List Char

/-- The whitespace set of JS (String.prototype.trim and the regex class \s):
tab, LF, VT, FF, CR, space, NBSP, and the Unicode space separators. -/
def isSpaceJS (c : Char) : Bool :=
  c ∈ [' ', '\t', '\n', '\x0b', '\x0c', '\r', '\u00A0', '\u1680',
       '\u2000', '\u2001', '\u2002', '\u2003', '\u2004', '\u2005', '\u2006',
       '\u2007', '\u2008', '\u2009', '\u200A', '\u2028', '\u2029', '\u202F',
       '\u205F', '\u3000', '\uFEFF']

/-- JS String.prototype.trim: drop leading and trailing whitespace. -/
def trimJS (s : Str) : Str :=
  ((s.dropWhile isSpaceJS).reverse.dropWhile isSpaceJS).reverse

/-- ASCII case folding for one character (the scope in which the code
compares classified responses against its all-ASCII keywords). -/
def toUpperChar (c : Char) : Char :=
  if 'a' ≤ c ∧ c ≤ 'z' then Char.ofNat (c.toNat - 32) else c

/-- JS String.prototype.toUpperCase, modelled on the ASCII range. -/
def toUpperJS (s : Str) : Str :=
  s.map toUpperChar

/-- JS String.prototype.includes: the needle occurs somewhere in the hay. -/
def containsSubstr (needle hay : Str) : Bool :=
  hay.tails.any (fun t => needle.isPrefixOf t)

/-- Index of the last occurrence of a character (JS lastIndexOf; `none`
models the JS return value -1). -/
def lastIndexOfChar (c : Char) : Str → Option Nat
  | [] => none
  | x :: xs =>
    match lastIndexOfChar c xs with
    | some i => some (i + 1)
    | none => if x = c then some 0 else none

/-- JS split("\n"): break a string into its newline-separated lines,
newlines removed.  The empty string yields one empty line. -/
def splitOnNl : Str → List Str
  | [] => [[]]
  | c :: rest =>
    if c = '\n' then [] :: splitOnNl rest
    else
      match splitOnNl rest with
      | [] => [[c]]
      | l :: ls => (c :: l) :: ls

/-- Break a string into lines with each terminating newline kept attached
(so that concatenating the lines restores the string exactly). -/
def splitLinesKeep : Str → List Str
  | [] => [[]]
  | c :: rest =>
    if c = '\n' then [c] :: splitLinesKeep rest
    else
      match splitLinesKeep rest with
      | [] => [[c]]
      | l :: ls => (c :: l) :: ls

/-! ### Configuration constants (constants.ts) -/

/-- API.MAX_RETRIES. -/
def MAX_RETRIES : Nat := 3

/-- API.RETRYABLE_STATUS_CODES. -/
def RETRYABLE_STATUS_CODES : List Nat := [429, 503, 502, 504]

/-- CONTENT.MAX_ARTICLE_CHARS. -/
def MAX_ARTICLE_CHARS : Nat := 24000

/-- DIALOGUE.ALIGNMENT_KEYWORDS. -/
def ALIGNMENT_KEYWORDS : List Str :=
  [("ALIGNED").data, ("I AGREE WITH THIS INTERPRETATION").data,
   ("WE ARE ALIGNED").data]

/-- DIALOGUE.APPROVAL_KEYWORDS. -/
def APPROVAL_KEYWORDS : List Str := [("APPROVED").data]

/-- DIALOGUE.MARGINAL_KEYWORDS. -/
def MARGINAL_KEYWORDS : List Str := [("MARGINAL").data]

/-! ### InterpretationPhase helpers -/

/-- The truncation notice appended by truncateContent. -/
def TRUNC_NOTICE : Str := ("\n\n[Content truncated for length]").data

/-- InterpretationPhase.truncateContent: content.slice(0, maxChars), cut
back to the last space (JS slice(0, lastIndexOf(" ")); when there is no
space, lastIndexOf yields -1 and slice(0, -1) drops the final character),
then the notice is appended. -/
def truncateContent (content : Str) (maxChars : Nat) : Str :=
  if content.length ≤ maxChars then content
  else
    let truncated := content.take maxChars
    match lastIndexOfChar ' ' truncated with
    | some i => truncated.take i ++ TRUNC_NOTICE
    | none => truncated.take (truncated.length - 1) ++ TRUNC_NOTICE

/-- InterpretationPhase.isAligned: the trimmed upper-cased response must
START with one of the alignment keywords. -/
def isAligned (response : Str) : Bool :=
  let trimmedUpper := toUpperJS (trimJS response)
  ALIGNMENT_KEYWORDS.any (fun keyword => keyword.isPrefixOf trimmedUpper)

/-- The character class of the summary-stripping regex [\s.,:\-\n]. -/
def isSummaryStrip (c : Char) : Bool :=
  isSpaceJS c || c ∈ ['.', ',', ':', '-']

/-- InterpretationPhase.extractAlignedSummary: take the text after the first
matching keyword, strip leading punctuation/whitespace, and keep it only if
longer than 50 characters, otherwise return the fallback. -/
def extractAlignedSummary (response fallback : Str) : Str :=
  let trimmed := trimJS response
  let upperTrimmed := toUpperJS trimmed
  match ALIGNMENT_KEYWORDS.find? (fun keyword => keyword.isPrefixOf upperTrimmed) with
  | some keyword =>
    let afterKeyword := trimJS (trimmed.drop keyword.length)
    let summary := trimJS (afterKeyword.dropWhile isSummaryStrip)
    if summary.length > 50 then summary else fallback
  | none => fallback

/-- Header of InterpretationPhase.combineInterpretations. -/
def SYNTH_HEADER : Str :=
  ("Synthesized understanding from multiple perspectives:\n\n").data

/-- Separator of InterpretationPhase.combineInterpretations. -/
def SYNTH_SEP : Str := ("\n\nAdditional perspective:\n").data

/-- InterpretationPhase.combineInterpretations: concatenate both final
interpretations under the synthesized-perspectives framing. -/
def combineInterpretations (gpt claude : Str) : Str :=
  SYNTH_HEADER ++ gpt ++ SYNTH_SEP ++ claude

/-! ### RefinementLoop.parseCritiqueStatus -/

/-- The three classification outcomes of a critique. -/
inductive CritiqueStatus where
  | approved
  | marginal
  | needs_work
deriving DecidableEq, Repr

/-- RefinementLoop.parseCritiqueStatus: the trimmed upper-cased critique
must START with an approval keyword (approved) or a marginal keyword
(marginal); anything else is needs_work. -/
def parseCritiqueStatus (critique : Str) : CritiqueStatus :=
  let trimmedUpper := toUpperJS (trimJS critique)
  if APPROVAL_KEYWORDS.any (fun keyword => keyword.isPrefixOf trimmedUpper) then
    .approved
  else if MARGINAL_KEYWORDS.any (fun keyword => keyword.isPrefixOf trimmedUpper) then
    .marginal
  else
    .needs_work

/-! ### AtomicNoteParser -/

/-- AtomicNote: heading, body, derived link flag, raw trimmed slice. -/
structure AtomicNote where
  heading : Str
  content : Str
  hasLink : Bool
  raw : Str
deriving DecidableEq, Repr

/-- The characters the JS regex dot does not match (line terminators). -/
def isDotExcluded (c : Char) : Bool :=
  c ∈ ['\n', '\r', '\u2028', '\u2029']

/-- After "](" : at least one dot-matching character, then ")". -/
def closeAux : Str → Bool
  | [] => false
  | x :: xs => decide (x = ')') || (!isDotExcluded x && closeAux xs)

/-- The part after "](" of the link regex: a nonempty run of dot-matching
characters followed by ")". -/
def closeScan : Str → Bool
  | [] => false
  | x :: xs => !isDotExcluded x && closeAux xs

/-- Helper of midScan: the anchor text may end here if "(" follows and the
url part matches. -/
def startParenClose : Str → Bool
  | [] => false
  | x :: xs => decide (x = '(') && closeScan xs

/-- After at least one anchor character: either "](" begins here and the url
part matches, or the anchor extends by one more dot-matching character. -/
def midScan : Str → Bool
  | [] => false
  | x :: xs => (decide (x = ']') && startParenClose xs) || (!isDotExcluded x && midScan xs)

/-- After "[" : a nonempty anchor of dot-matching characters, then "](",
then the url part. -/
def openScan : Str → Bool
  | [] => false
  | x :: xs => !isDotExcluded x && midScan xs

/-- The parser link regex /\[.+?\]\(.+?\)/.test(content): some position
starts a [anchor](url) occurrence with nonempty anchor and url, neither
crossing a line terminator. -/
def linkTest (content : Str) : Bool :=
  content.tails.any (fun t =>
    match t with
    | '[' :: rest => openScan rest
    | _ => false)

/-- The H3 marker "###". -/
def H3_MARKER : Str := ("###").data

/-- A line begins a new section when it starts with "###" followed by a
whitespace character; lines carry their trailing newline, so the regex
lookahead (?=^###\s)m is exactly a prefix test on the line. -/
def isSectionStart (line : Str) : Bool :=
  match line with
  | '#' :: '#' :: '#' :: c :: _ => isSpaceJS c
  | _ => false

/-- Group the lines (with newlines attached) into sections, starting a new
section at each section-start line; a match at the very start of the text
produces no leading empty section, as with the JS split. -/
def groupSectionsAux (acc : Str) : List Str → List Str
  | [] => [acc]
  | l :: ls =>
    if isSectionStart l then acc :: groupSectionsAux l ls
    else groupSectionsAux (acc ++ l) ls

/-- modelOutput.split(/(?=^###\s)/m): cut the text before every line that
starts with "###" plus whitespace. -/
def splitSections (s : Str) : List Str :=
  match splitLinesKeep s with
  | [] => [[]]
  | l :: ls => groupSectionsAux l ls

/-- replace(/^###\s*\/, ""): strip a leading "###" and any whitespace run
following it. -/
def stripHeadingMarker (l : Str) : Str :=
  match l with
  | '#' :: '#' :: '#' :: rest => rest.dropWhile isSpaceJS
  | _ => l

/-- AtomicNoteParser.parseSection: split the (already trimmed) section into
lines; require at least two lines; heading is the first line with the
marker stripped and trimmed (discard if empty); content is the remaining
nonblank lines joined and trimmed (discard if empty); hasLink is the link
regex test on the content. -/
def parseSection (sectionText : Str) : Option AtomicNote :=
  match splitOnNl sectionText with
  | [] => none
  | [_] => none
  | headingLine :: restLines =>
    let heading := trimJS (stripHeadingMarker headingLine)
    if heading = [] then none
    else
      let contentLines := restLines.filter (fun line => !(trimJS line).isEmpty)
      let content := trimJS (List.intercalate ['\n'] contentLines)
      if content = [] then none
      else some ⟨heading, content, linkTest content, trimJS sectionText⟩

/-- AtomicNoteParser.parse: split on H3 headings, skip any segment whose
trimmed text does not start with "###", and collect the sections that
parseSection accepts. -/
def parse (modelOutput : Str) : List AtomicNote :=
  (splitSections modelOutput).filterMap (fun sectionText =>
    let trimmed := trimJS sectionText
    if H3_MARKER.isPrefixOf trimmed then parseSection trimmed else none)

/-! ### OpenRouterClient (resilient request layer) -/

/-- OpenRouterError: message, status code, and the retryable flag. -/
structure OpenRouterError where
  message : Str
  statusCode : Nat
  isRetryable : Bool
deriving DecidableEq, Repr

/-- choices[i].message of the wire response. -/
structure ORMessage where
  role : Str
  content : Str
deriving DecidableEq, Repr

/-- choices[i] of the wire response. -/
structure ORChoice where
  message : ORMessage
deriving DecidableEq, Repr

/-- error payload of the wire response; code 0 models a falsy code. -/
structure ORApiError where
  message : Str
  code : Nat
deriving DecidableEq, Repr

/-- Parsed JSON body of the wire response. -/
structure ORBody where
  choices : List ORChoice
  error : Option ORApiError
deriving DecidableEq, Repr

/-- What the transport does for one attempt: the requestUrl call either
fails at the network layer or yields an HTTP status with a parsed body. -/
inductive TransportResult where
  | networkError
  | response (status : Nat) (body : ORBody)
deriving DecidableEq, Repr

/-- Message of the network-layer failure. -/
def NETWORK_ERROR_MSG : Str :=
  ("Network error: Failed to connect to OpenRouter").data

/-- The user-facing message table of handleHttpError, with its template
default for unlisted statuses. -/
def httpErrorMessage (status : Nat) : Str :=
  if status = 400 then ("Bad request. The model ID may be invalid.").data
  else if status = 401 then
    ("Invalid API key. Please check your OpenRouter API key in settings.").data
  else if status = 402 then
    ("Insufficient credits. Please add credits to your OpenRouter account.").data
  else if status = 403 then
    ("Access forbidden. Your API key may not have access to this model.").data
  else if status = 404 then
    ("Model not found. Please select a different model in settings.").data
  else if status = 429 then ("Rate limited. Retrying...").data
  else if status = 500 then ("OpenRouter server error. Please try again.").data
  else if status = 502 then ("Bad gateway. OpenRouter may be experiencing issues.").data
  else if status = 503 then ("Service temporarily unavailable. Retrying...").data
  else if status = 504 then ("Gateway timeout. Retrying...").data
  else ("Request failed with status ").data ++ (Nat.repr status).data

/-- OpenRouterClient.handleHttpError: non-200 statuses become an
OpenRouterError, retryable exactly for the configured status set. -/
def handleHttpError (status : Nat) : OpenRouterError :=
  ⟨httpErrorMessage status, status, RETRYABLE_STATUS_CODES.contains status⟩

/-- Message for a body with no choices. -/
def NO_RESPONSE_MSG : Str := ("No response from model").data

/-- Message for a choice with empty content. -/
def EMPTY_RESPONSE_MSG : Str := ("Empty response from model").data

/-- Default message for an error payload with a falsy message. -/
def API_ERROR_MSG : Str := ("API error").data

/-- OpenRouterClient.makeRequest for one transport outcome: network errors
are retryable; non-200 statuses go through handleHttpError; an error
payload in the body, a missing/empty choices array, and empty message
content are terminal; otherwise the content is returned. -/
def makeRequest (t : TransportResult) : Except OpenRouterError Str :=
  match t with
  | .networkError => .error ⟨NETWORK_ERROR_MSG, 0, true⟩
  | .response status body =>
    if status ≠ 200 then .error (handleHttpError status)
    else
      match body.error with
      | some e =>
        .error ⟨if e.message = [] then API_ERROR_MSG else e.message,
                if e.code = 0 then status else e.code, false⟩
      | none =>
        match body.choices with
        | [] => .error ⟨NO_RESPONSE_MSG, status, false⟩
        | choice :: _ =>
          if choice.message.content = [] then
            .error ⟨EMPTY_RESPONSE_MSG, status, false⟩
          else .ok choice.message.content

/-- The distinct failure outcomes of chat(): the proactive cancellation
check, a propagated OpenRouterError (also the surfaced last error after
exhausting retries), and the guard for a zero-retry configuration. -/
inductive ChatError where
  | cancelledE
  | apiE (e : OpenRouterError)
  | exhaustedE
deriving DecidableEq, Repr

/-- The message thrown on cancellation. -/
def CANCELLED_MSG : Str := ("Cancelled").data

/-- The retry loop of OpenRouterClient.chat: before each attempt check the
cancellation token; on success return the content (the call counter
increments exactly then); on a retryable error back off and continue; on a
terminal error propagate immediately; after exhausting the attempts
surface the last observed error.  The second component counts the attempts
actually made. -/
def chatGo (transport : Nat → TransportResult) (cancelled : Bool)
    (maxRetries attempt : Nat) (lastError : Option OpenRouterError)
    (attemptsMade : Nat) : Except ChatError Str × Nat :=
  if _h : attempt < maxRetries then
    if cancelled then (.error .cancelledE, attemptsMade)
    else
      match makeRequest (transport attempt) with
      | .ok content => (.ok content, attemptsMade + 1)
      | .error e =>
        if e.isRetryable then
          chatGo transport cancelled maxRetries (attempt + 1) (some e) (attemptsMade + 1)
        else (.error (.apiE e), attemptsMade + 1)
  else
    match lastError with
    | some e => (.error (.apiE e), attemptsMade)
    | none => (.error .exhaustedE, attemptsMade)
termination_by maxRetries - attempt
decreasing_by omega

/-- OpenRouterClient.chat: run the retry loop from attempt 0 with
MAX_RETRIES attempts.  Returns the result and the number of attempts. -/
def chat (transport : Nat → TransportResult) (cancelled : Bool) :
    Except ChatError Str × Nat :=
  chatGo transport cancelled MAX_RETRIES 0 none 0

/-- The call counter increments on every successful attempt only. -/
def chatCallsDelta (result : Except ChatError Str) : Nat :=
  match result with
  | .ok _ => 1
  | .error _ => 0

/-! ### InterpretationPhase.run

The two model roles are abstracted as response oracles indexed by the
per-role call number (the prompt strings the phase builds are absorbed into
the oracles, which may answer arbitrarily).  The cancellation token is set
only before a session starts, so it is a constant Boolean here.  Each run
returns the phase result (or the thrown Cancelled error) together with the
number of drafter and critic chat calls made. -/

/-- InterpretationResult of InterpretationPhase.run. -/
structure InterpretationResult where
  aligned : Bool
  alignedInterpretation : Str
  gptInterpretation : Str
  claudeInterpretation : Str
  rounds : Nat
deriving DecidableEq, Repr

/-- ExtractedArticle (external input). -/
structure ExtractedArticle where
  title : Str
  content : Str
  url : Str
  siteName : Option Str
  excerpt : Option Str
deriving DecidableEq, Repr

/-- The alignment loop of InterpretationPhase.run: while round < maxRounds,
show the drafter interpretation to the critic; on an aligned critic
response return with the extracted summary; otherwise adopt the critic
response, advance the round, exit if the budget is reached, and repeat the
exchange in the other direction.  dIdx and cIdx count per-role chat calls
(so they also index the next oracle response). -/
def interpGo (maxRounds : Nat) (cancelled : Bool) (dOr cOr : Nat → Str)
    (dIdx cIdx : Nat) (gpt claude : Str) (round : Nat) :
    Except Str InterpretationResult × Nat × Nat :=
  if _h : round < maxRounds then
    if cancelled then (.error CANCELLED_MSG, dIdx, cIdx)
    else
      let claudeResponse := cOr cIdx
      if cancelled then (.error CANCELLED_MSG, dIdx, cIdx + 1)
      else if isAligned claudeResponse then
        (.ok ⟨true, extractAlignedSummary claudeResponse gpt, gpt, claude, round + 1⟩,
         dIdx, cIdx + 1)
      else
        let claude2 := claudeResponse
        let round2 := round + 1
        if round2 ≥ maxRounds then
          (.ok ⟨false, combineInterpretations gpt claude2, gpt, claude2, maxRounds⟩,
           dIdx, cIdx + 1)
        else
          let gptResponse := dOr dIdx
          if cancelled then (.error CANCELLED_MSG, dIdx + 1, cIdx + 1)
          else if isAligned gptResponse then
            (.ok ⟨true, extractAlignedSummary gptResponse claude2, gpt, claude2, round2 + 1⟩,
             dIdx + 1, cIdx + 1)
          else
            interpGo maxRounds cancelled dOr cOr (dIdx + 1) (cIdx + 1)
              gptResponse claude2 (round2 + 1)
  else
    (.ok ⟨false, combineInterpretations gpt claude, gpt, claude, maxRounds⟩, dIdx, cIdx)
termination_by maxRounds - round
decreasing_by omega

/-- InterpretationPhase.run: truncate the article content into the prompt,
check cancellation, obtain both initial interpretations in parallel, check
cancellation again, then enter the alignment loop at round 1. -/
def interpRun (maxRounds : Nat) (cancelled : Bool) (dOr cOr : Nat → Str)
    (article : ExtractedArticle) : Except Str InterpretationResult × Nat × Nat :=
  let _truncatedContent := truncateContent article.content MAX_ARTICLE_CHARS
  if cancelled then (.error CANCELLED_MSG, 0, 0)
  else
    let gptInterpretation := dOr 0
    let claudeInterpretation := cOr 0
    if cancelled then (.error CANCELLED_MSG, 1, 1)
    else interpGo maxRounds cancelled dOr cOr 1 1 gptInterpretation claudeInterpretation 1

/-! ### RefinementLoop.run -/

/-- TranscriptEntry: append-only log entry of the refinement phase. -/
structure TranscriptEntry where
  phase : Str
  role : Str
  type : Str
  content : Str
  round : Nat
deriving DecidableEq, Repr

/-- RefinementResult of RefinementLoop.run. -/
structure RefinementResult where
  notes : List AtomicNote
  rounds : Nat
  approved : Bool
  transcript : List TranscriptEntry
deriving DecidableEq, Repr

/-- Transcript tag constants. -/
def REFINEMENT_TAG : Str := ("refinement").data

/-- Role tag of the drafter. -/
def DRAFTER_TAG : Str := ("drafter").data

/-- Role tag of the critic. -/
def CRITIC_TAG : Str := ("critic").data

/-- Entry type of the initial draft. -/
def DRAFT_TAG : Str := ("draft").data

/-- Entry type of a critique. -/
def CRITIQUE_TAG : Str := ("critique").data

/-- Entry type of a revision. -/
def REVISION_TAG : Str := ("revision").data

/-- The critique/revise loop of RefinementLoop.run: while round < maxRounds,
obtain a critique (appended to the transcript with tag round+1); an
approved or marginal status returns the current notes as approved; on needs
work the round advances and, if the budget is now reached, the loop exits
without a further revision call; otherwise a revision is obtained (appended
with the post-increment round+1) and re-parsed.  dIdx and cIdx count
per-role chat calls. -/
def refineGo (maxRounds : Nat) (cancelled : Bool) (dOr cOr : Nat → Str)
    (dIdx cIdx : Nat) (_currentDraft : Str) (currentNotes : List AtomicNote)
    (transcript : List TranscriptEntry) (round : Nat) :
    Except Str RefinementResult × Nat × Nat :=
  if _h : round < maxRounds then
    if cancelled then (.error CANCELLED_MSG, dIdx, cIdx)
    else
      let critique := cOr cIdx
      if cancelled then (.error CANCELLED_MSG, dIdx, cIdx + 1)
      else
        let transcript2 := transcript ++
          [⟨REFINEMENT_TAG, CRITIC_TAG, CRITIQUE_TAG, critique, round + 1⟩]
        let status := parseCritiqueStatus critique
        if status = .approved ∨ status = .marginal then
          (.ok ⟨currentNotes, round + 1, true, transcript2⟩, dIdx, cIdx + 1)
        else
          let round2 := round + 1
          if round2 ≥ maxRounds then
            (.ok ⟨currentNotes, maxRounds, false, transcript2⟩, dIdx, cIdx + 1)
          else
            let draft2 := dOr dIdx
            if cancelled then (.error CANCELLED_MSG, dIdx + 1, cIdx + 1)
            else
              let transcript3 := transcript2 ++
                [⟨REFINEMENT_TAG, DRAFTER_TAG, REVISION_TAG, draft2, round2 + 1⟩]
              refineGo maxRounds cancelled dOr cOr (dIdx + 1) (cIdx + 1)
                draft2 (parse draft2) transcript3 round2
  else
    (.ok ⟨currentNotes, maxRounds, false, transcript⟩, dIdx, cIdx)
termination_by maxRounds - round
decreasing_by omega

/-- RefinementLoop.run: check cancellation, obtain the initial draft from
the drafter (transcript entry with round 1), parse it, and enter the
critique/revise loop at round 0. -/
def refineRun (maxRounds : Nat) (cancelled : Bool) (dOr cOr : Nat → Str) :
    Except Str RefinementResult × Nat × Nat :=
  if cancelled then (.error CANCELLED_MSG, 0, 0)
  else
    let currentDraft := dOr 0
    if cancelled then (.error CANCELLED_MSG, 1, 0)
    else
      let transcript := [⟨REFINEMENT_TAG, DRAFTER_TAG, DRAFT_TAG, currentDraft, 1⟩]
      refineGo maxRounds cancelled dOr cOr 1 0 currentDraft (parse currentDraft) transcript 0

/-! ### DialogueOrchestrator -/

/-- DialoguePhase. -/
inductive DialoguePhase where
  | interpreting
  | aligned
  | drafting
  | refining
  | complete
  | error
deriving DecidableEq, Repr

/-- DialogueState: the mutable session record owned by the orchestrator. -/
structure DialogueState where
  phase : DialoguePhase
  interpretationRounds : Nat
  refinementRounds : Nat
  claudeInterpretation : Option Str
  gptInterpretation : Option Str
  alignedInterpretation : Option Str
  currentDraft : Option (List AtomicNote)
  currentCritique : Option Str
  error : Option Str
deriving DecidableEq, Repr

/-- DialogueResult returned by DialogueOrchestrator.process. -/
structure DialogueResult where
  article : ExtractedArticle
  state : DialogueState
  atomicNotes : List AtomicNote
  totalApiCalls : Nat
deriving DecidableEq, Repr

/-- The initial session state built at the top of process(). -/
def initialState : DialogueState :=
  ⟨.interpreting, 0, 0, none, none, none, none, none, none⟩

/-- DialogueOrchestrator.process: run the interpretation phase, record its
result, check cancellation, run the refinement loop on the aligned
interpretation, and package the final result; any failure thrown by either
phase (including Cancelled) is caught, the phase is set to error with the
failure description, and whatever partial draft the state holds (none at
every failure point, hence the empty list) is returned together with the
call count.  callCount0 is the client call counter at entry; oracle pairs
(dOrI, cOrI) and (dOrR, cOrR) supply the two phases with responses. -/
def process (maxI maxR : Nat) (cancelled : Bool) (dOrI cOrI dOrR cOrR : Nat → Str)
    (callCount0 : Nat) (article : ExtractedArticle) : DialogueResult :=
  match interpRun maxI cancelled dOrI cOrI article with
  | (.error msg, dc, cc) =>
    let stateF := { initialState with phase := .error, error := some msg }
    ⟨article, stateF, stateF.currentDraft.getD [], callCount0 + dc + cc⟩
  | (.ok ir, dc, cc) =>
    let state1 := { initialState with
      interpretationRounds := ir.rounds,
      gptInterpretation := some ir.gptInterpretation,
      claudeInterpretation := some ir.claudeInterpretation,
      alignedInterpretation := some ir.alignedInterpretation,
      phase := .aligned }
    if cancelled then
      let stateF := { state1 with phase := .error, error := some CANCELLED_MSG }
      ⟨article, stateF, stateF.currentDraft.getD [], callCount0 + dc + cc⟩
    else
      let state2 := { state1 with phase := .drafting }
      match refineRun maxR cancelled dOrR cOrR with
      | (.error msg, dc2, cc2) =>
        let stateF := { state2 with phase := .error, error := some msg }
        ⟨article, stateF, stateF.currentDraft.getD [], callCount0 + dc + cc + dc2 + cc2⟩
      | (.ok rr, dc2, cc2) =>
        let state3 := { state2 with
          refinementRounds := rr.rounds,
          currentDraft := some rr.notes,
          phase := .complete }
        ⟨article, state3, rr.notes, callCount0 + dc + cc + dc2 + cc2⟩

/-- OpenRouterClient.resetCallCount, exposed through
DialogueOrchestrator.reset: the only operation that zeroes the counter. -/
def resetCallCount (_callCount : Nat) : Nat := 0

/-! ### Spec-side predicates (stated from the words of the specification,
for comparison with the implementation) -/

/-- The word the strictness property watches for. -/
def ALIGNED_WORD : Str := ("ALIGNED").data

/-- Spec wording: the trimmed, case-normalized response starts with one of
the fixed alignment keywords. -/
def startsWithAlignmentKeyword (s : Str) : Bool :=
  ALIGNMENT_KEYWORDS.any (fun keyword => keyword.isPrefixOf (toUpperJS (trimJS s)))

/-- Spec wording: the trimmed, case-normalized critique starts with a
recognized approval keyword. -/
def startsWithApprovalKeyword (s : Str) : Bool :=
  APPROVAL_KEYWORDS.any (fun keyword => keyword.isPrefixOf (toUpperJS (trimJS s)))

/-- Spec wording: the trimmed, case-normalized critique starts with a
recognized marginal keyword. -/
def startsWithMarginalKeyword (s : Str) : Bool :=
  MARGINAL_KEYWORDS.any (fun keyword => keyword.isPrefixOf (toUpperJS (trimJS s)))

/-- Spec wording for the truncation boundary: the output is a prefix of the
content cut at a word boundary (the next original character is a space, or
nothing was kept), followed by the truncation notice. -/
def CutAtWordBoundary (content out : Str) : Prop :=
  ∃ i, i ≤ content.length ∧ out = content.take i ++ TRUNC_NOTICE ∧
    (i = 0 ∨ content.get? i = some ' ')

/-- Spec wording: the text contains a markdown-style [text](url) link; the
anchor and url parts are nonempty and stay on one line, matching what the
dot of the parser regex can cover. -/
def ContainsMarkdownLink (s : Str) : Prop :=
  ∃ a b c d : Str, s = a ++ '[' :: (b ++ ']' :: '(' :: (c ++ ')' :: d)) ∧
    b ≠ [] ∧ c ≠ [] ∧
    (∀ ch ∈ b, isDotExcluded ch = false) ∧ (∀ ch ∈ c, isDotExcluded ch = false)

/-! ### Concrete scenario inputs -/

/-- The critic response of the §8 interpretation scenario. -/
def SCENARIO_RESPONSE : Str := ("ALIGNED. We agree the article argues X.").data

/-- The summary the §8 scenario expects to be extracted. -/
def SCENARIO_EXPECTED : Str := ("We agree the article argues X.").data

/-- A drafter interpretation for the scenario runs. -/
def SCENARIO_GPT : Str :=
  ("The article argues that bounded dialogue with strict classification converges.").data

/-- A critic interpretation for the scenario runs. -/
def SCENARIO_CLAUDE : Str :=
  ("The piece mainly catalogues failure modes of unbounded dialogue loops.").data

/-- Article used by the concrete scenario runs. -/
def SCENARIO_ARTICLE : ExtractedArticle :=
  ⟨("Bounded Dialogue").data, ("Some short article body.").data,
   ("https://example.com/bounded").data, none, none⟩

/-- Drafter oracle of the scenario runs: interpretation first, then
revisions that never signal alignment. -/
def scenarioDrafterOracle (n : Nat) : Str :=
  if n = 0 then SCENARIO_GPT else ("Here is a refined draft, attempt ").data ++ (Nat.repr n).data

/-- Critic oracle of the §8 scenario: independent interpretation first,
then the ALIGNED reply quoted by the scenario. -/
def scenarioCriticOracle (n : Nat) : Str :=
  if n = 0 then SCENARIO_CLAUDE else SCENARIO_RESPONSE

/-- Spaceless content exceeding the configured article ceiling, for the
truncation boundary analysis. -/
def spacelessContent : Str := List.replicate (MAX_ARTICLE_CHARS + 1) 'a'

/-! ### Claim theorems -/

/-- C1: a response that contains the word "aligned" somewhere but whose
trimmed, case-folded form does not start with an alignment keyword is
classified as not aligned; a response whose trimmed upper-cased form starts
with an alignment keyword is classified as aligned regardless of what
follows. -/
theorem alignmentPrefixStrict (response : Str) :
    (containsSubstr ALIGNED_WORD (toUpperJS response) = true →
      startsWithAlignmentKeyword response = false → isAligned response = false)
    ∧ (startsWithAlignmentKeyword response = true → isAligned response = true) := by
  constructor
  · intro _ h2
    simpa [isAligned, startsWithAlignmentKeyword] using h2
  · intro h
    simpa [isAligned, startsWithAlignmentKeyword] using h

/-- Witness for C1: a mid-text mention of aligned is rejected, a keyword
prefix with trailing content is accepted. -/
theorem alignmentPrefixStrict_witness :
    isAligned (("Its conclusions are well aligned with the data.").data) = false
    ∧ isAligned (("ALIGNED. Shared reading of the essay.").data) = true := by
  constructor
  · exact (alignmentPrefixStrict
      (("Its conclusions are well aligned with the data.").data)).1 (by decide) (by decide)
  · exact (alignmentPrefixStrict
      (("ALIGNED. Shared reading of the essay.").data)).2 (by decide)

/-- C2: a critique is classified approved or marginal only when its
trimmed, case-normalized text starts with a recognized approval or marginal
keyword; any other critique (also one that merely mentions such a keyword
mid-text) is classified needs_work. -/
theorem critiqueClassificationStrict (critique : Str) :
    (parseCritiqueStatus critique = .approved →
      startsWithApprovalKeyword critique = true)
    ∧ (parseCritiqueStatus critique = .marginal →
      startsWithMarginalKeyword critique = true)
    ∧ (startsWithApprovalKeyword critique = false →
      startsWithMarginalKeyword critique = false →
      parseCritiqueStatus critique = .needs_work) := by
  simp only [parseCritiqueStatus, startsWithApprovalKeyword, startsWithMarginalKeyword]
  split_ifs with h1 h2 <;> simp_all

/-- Witness for C2: a critique that mentions both keywords mid-text is
classified needs_work. -/
theorem critiqueClassificationStrict_witness :
    parseCritiqueStatus
      (("Not yet APPROVED; even calling it MARGINAL would be generous.").data)
      = .needs_work := by
  exact (critiqueClassificationStrict
    (("Not yet APPROVED; even calling it MARGINAL would be generous.").data)).2.2
    (by decide) (by decide)

/-- C10: for one orchestrator the call counter accumulates across sessions:
a process() call entered with counter c0 reports c0 plus the successful
chat calls of that session (its own report when entered at zero); process
never resets the counter, and resetCallCount is what returns it to zero. -/
theorem apiCallCounterAccumulates (maxI maxR : Nat) (cancelled : Bool)
    (dOrI cOrI dOrR cOrR : Nat → Str) (article : ExtractedArticle) (c0 : Nat) :
    (process maxI maxR cancelled dOrI cOrI dOrR cOrR c0 article).totalApiCalls
      = c0 + (process maxI maxR cancelled dOrI cOrI dOrR cOrR 0 article).totalApiCalls
    ∧ resetCallCount
        (process maxI maxR cancelled dOrI cOrI dOrR cOrR c0 article).totalApiCalls = 0 := by
  refine ⟨?_, rfl⟩
  rcases h1 : interpRun maxI cancelled dOrI cOrI article with ⟨r1, dc, cc⟩
  rcases r1 with msg | ir
  · simp [process, h1]
    omega
  · cases cancelled
    · rcases h2 : refineRun maxR false dOrR cOrR with ⟨r2, dc2, cc2⟩
      rcases r2 with msg2 | rr
      · simp [process, h1, h2]
        omega
      · simp [process, h1, h2]
        omega
    · simp [process, h1]
      omega

/-- C8: with the cancellation token set before the session starts, the
request layer aborts before any attempt, both phases abort before any chat
call, and process returns through the error boundary with the call counter
unchanged. -/
theorem cancellationImmediacy :
    (∀ transport : Nat → TransportResult,
      chat transport true = (.error .cancelledE, 0))
    ∧ (∀ (maxI : Nat) (dOr cOr : Nat → Str) (article : ExtractedArticle),
      interpRun maxI true dOr cOr article = (.error CANCELLED_MSG, 0, 0))
    ∧ (∀ (maxR : Nat) (dOr cOr : Nat → Str),
      refineRun maxR true dOr cOr = (.error CANCELLED_MSG, 0, 0))
    ∧ (∀ (maxI maxR : Nat) (dOrI cOrI dOrR cOrR : Nat → Str) (c0 : Nat)
      (article : ExtractedArticle),
      process maxI maxR true dOrI cOrI dOrR cOrR c0 article =
        ⟨article, { initialState with phase := .error, error := some CANCELLED_MSG },
         [], c0⟩) := by
  refine ⟨?_, ?_, ?_, ?_⟩
  · intro transport
    rw [chat, chatGo]
    norm_num [MAX_RETRIES]
  · intro maxI dOr cOr article
    simp [interpRun]
  · intro maxR dOr cOr
    simp [refineRun]
  · intro maxI maxR dOrI cOrI dOrR cOrR c0 article
    simp [process, interpRun, initialState]

/-- C5: every failure thrown inside either phase (including the
cancellation signal) is caught by the orchestrator, which returns a
structured result with phase error, the failure description recorded, and
the partial draft at failure time (none, hence the empty list) as the
notes, instead of propagating. -/
theorem orchestratorFailureBoundary (maxI maxR : Nat) (cancelled : Bool)
    (dOrI cOrI dOrR cOrR : Nat → Str) (c0 : Nat) (article : ExtractedArticle) :
    (∀ msg dc cc,
      interpRun maxI cancelled dOrI cOrI article = (.error msg, dc, cc) →
      process maxI maxR cancelled dOrI cOrI dOrR cOrR c0 article =
        ⟨article, { initialState with phase := .error, error := some msg },
         [], c0 + dc + cc⟩)
    ∧ (∀ ir dc cc msg dc2 cc2,
      interpRun maxI cancelled dOrI cOrI article = (.ok ir, dc, cc) →
      refineRun maxR cancelled dOrR cOrR = (.error msg, dc2, cc2) →
      cancelled = false →
      (process maxI maxR cancelled dOrI cOrI dOrR cOrR c0 article).state.phase = .error
      ∧ (process maxI maxR cancelled dOrI cOrI dOrR cOrR c0 article).state.error = some msg
      ∧ (process maxI maxR cancelled dOrI cOrI dOrR cOrR c0 article).state.currentDraft = none
      ∧ (process maxI maxR cancelled dOrI cOrI dOrR cOrR c0 article).atomicNotes = []
      ∧ (process maxI maxR cancelled dOrI cOrI dOrR cOrR c0 article).totalApiCalls
          = c0 + dc + cc + dc2 + cc2) := by
  constructor
  · intro msg dc cc h1
    simp [process, h1, initialState]
  · intro ir dc cc msg dc2 cc2 h1 h2 hc
    subst hc
    simp [process, h1, h2, initialState]

/-- C4: with MAX_RETRIES = 3, a transport that always fails retryably makes
chat() attempt exactly 3 times and then fail terminally with the last
observed error; a first attempt that fails with any non-retryable condition
(another non-2xx status, an API error payload, missing choices, or empty
content) makes chat() stop after exactly one attempt, propagating that
error; the listed terminal conditions all map to non-retryable errors. -/
theorem retryCeiling (transport : Nat → TransportResult) :
    ((∀ n, ∃ e, makeRequest (transport n) = .error e ∧ e.isRetryable = true) →
      ∃ e2, makeRequest (transport 2) = .error e2 ∧
        chat transport false = (.error (.apiE e2), 3))
    ∧ (∀ e, makeRequest (transport 0) = .error e → e.isRetryable = false →
      chat transport false = (.error (.apiE e), 1))
    ∧ (∀ status body, status ≠ 200 → RETRYABLE_STATUS_CODES.contains status = false →
      ∃ e, makeRequest (.response status body) = .error e ∧ e.isRetryable = false)
    ∧ (∀ body apiErr, body.error = some apiErr →
      ∃ e, makeRequest (.response 200 body) = .error e ∧ e.isRetryable = false)
    ∧ (∀ body, body.error = none → body.choices = [] →
      makeRequest (.response 200 body) = .error ⟨NO_RESPONSE_MSG, 200, false⟩)
    ∧ (∀ body choice rest, body.error = none → body.choices = choice :: rest →
      choice.message.content = [] →
      makeRequest (.response 200 body) = .error ⟨EMPTY_RESPONSE_MSG, 200, false⟩) := by
  refine ⟨?_, ?_, ?_, ?_, ?_, ?_⟩
  · intro h
    obtain ⟨e0, h0, r0⟩ := h 0
    obtain ⟨e1, h1, r1⟩ := h 1
    obtain ⟨e2, h2, r2⟩ := h 2
    refine ⟨e2, h2, ?_⟩
    simp [chat, chatGo, MAX_RETRIES, h0, h1, h2, r0, r1, r2]
  · intro e h0 r0
    simp [chat, chatGo, MAX_RETRIES, h0, r0]
  · intro status body hne hnr
    refine ⟨handleHttpError status, by simp [makeRequest, hne], ?_⟩
    simp only [handleHttpError]
    exact hnr
  · intro body apiErr hsome
    refine ⟨⟨if apiErr.message = [] then API_ERROR_MSG else apiErr.message,
      if apiErr.code = 0 then 200 else apiErr.code, false⟩, ?_, rfl⟩
    simp [makeRequest, hsome]
  · intro body hnone hnil
    simp [makeRequest, hnone, hnil]
  · intro body choice rest hnone hcons hempty
    simp [makeRequest, hnone, hcons, hempty]

/-- Witness for C4: a transport that always answers 429 leads to three
attempts and the surfaced rate-limit error; a single 400 answer leads to
one attempt and immediate propagation. -/
theorem retryCeiling_witness :
    (∃ e2, makeRequest ((fun _ => .response 429 ⟨[], none⟩ : Nat → TransportResult) 2)
        = .error e2 ∧
      chat (fun _ => .response 429 ⟨[], none⟩) false = (.error (.apiE e2), 3))
    ∧ chat (fun _ => .response 400 ⟨[], none⟩) false =
        (.error (.apiE (handleHttpError 400)), 1) := by
  constructor
  · exact (retryCeiling (fun _ => .response 429 ⟨[], none⟩)).1
      (fun n => ⟨handleHttpError 429, by rfl, by decide⟩)
  · exact (retryCeiling (fun _ => .response 400 ⟨[], none⟩)).2.1
      (handleHttpError 400) (by rfl) (by decide)

/-- Witness for C5: a cancelled session fails the interpretation phase and
the orchestrator converts it into an error-phase result. -/
theorem orchestratorFailureBoundary_witness :
    process 2 2 true scenarioDrafterOracle scenarioCriticOracle
      scenarioDrafterOracle scenarioCriticOracle 0 SCENARIO_ARTICLE =
      ⟨SCENARIO_ARTICLE,
       { initialState with phase := .error, error := some CANCELLED_MSG }, [], 0⟩ := by
  exact (orchestratorFailureBoundary 2 2 true scenarioDrafterOracle scenarioCriticOracle
    scenarioDrafterOracle scenarioCriticOracle 0 SCENARIO_ARTICLE).1
    CANCELLED_MSG 0 0 rfl

/-- The scenario response starts with ALIGNED. -/
lemma isAligned_scenario : isAligned SCENARIO_RESPONSE = true := by decide

/-- The remainder after the keyword in the scenario response is 30
characters, under the 50-character minimum, so the extraction falls back. -/
lemma extractAlignedSummary_scenario (fb : Str) :
    extractAlignedSummary SCENARIO_RESPONSE fb = fb := rfl

/-- With maxRounds = 2 and the critic answering the scenario response in
the alignment round, the phase returns aligned with rounds 2 and the
DRAFTER interpretation as the aligned interpretation (the fallback). -/
lemma interpRun_scenario_general (dOr cOr : Nat → Str) (article : ExtractedArticle)
    (h : cOr 1 = SCENARIO_RESPONSE) :
    interpRun 2 false dOr cOr article = (.ok ⟨true, dOr 0, dOr 0, cOr 0, 2⟩, 1, 2) := by
  rw [interpRun]
  simp only [Bool.false_eq_true, if_false]
  rw [interpGo]
  simp [h, isAligned_scenario, extractAlignedSummary_scenario]

/-- C6 counterexample: in the §8 scenario (maxRounds 2, second-round critic
response exactly "ALIGNED. We agree the article argues X.") the phase does
return aligned with rounds 2, but the aligned interpretation is the
drafter interpretation, not the text after the keyword: the extracted
remainder is only 30 characters, below the 50-character minimum, so the
code falls back. -/
theorem interpretationScenarioCounterexample :
    scenarioCriticOracle 1 = SCENARIO_RESPONSE
    ∧ interpRun 2 false scenarioDrafterOracle scenarioCriticOracle SCENARIO_ARTICLE
        = (.ok ⟨true, SCENARIO_GPT, SCENARIO_GPT, SCENARIO_CLAUDE, 2⟩, 1, 2)
    ∧ SCENARIO_GPT ≠ SCENARIO_EXPECTED := by
  refine ⟨rfl, ?_, by decide⟩
  exact interpRun_scenario_general scenarioDrafterOracle scenarioCriticOracle
    SCENARIO_ARTICLE rfl

/-- C6 (amended): with maxRounds = 2 and the second-round alignment
response starting with ALIGNED followed by "We agree the article argues X."
(30 characters, below the 50-character extraction minimum), the phase
returns aligned = true and rounds = 2, with alignedInterpretation equal to
the fallback: the drafter role's current interpretation. -/
theorem interpretationScenarioAmended (dOr cOr : Nat → Str)
    (article : ExtractedArticle) (h : cOr 1 = SCENARIO_RESPONSE) :
    interpRun 2 false dOr cOr article = (.ok ⟨true, dOr 0, dOr 0, cOr 0, 2⟩, 1, 2) :=
  interpRun_scenario_general dOr cOr article h

/-- Witness for the amended C6 at the concrete scenario oracles. -/
theorem interpretationScenarioAmended_witness :
    interpRun 2 false scenarioDrafterOracle scenarioCriticOracle SCENARIO_ARTICLE
      = (.ok ⟨true, scenarioDrafterOracle 0, scenarioDrafterOracle 0,
          scenarioCriticOracle 0, 2⟩, 1, 2) :=
  interpretationScenarioAmended scenarioDrafterOracle scenarioCriticOracle
    SCENARIO_ARTICLE rfl

/-- lastIndexOfChar finds nothing exactly when the character is absent. -/
lemma lastIndexOfChar_eq_none (c : Char) (l : Str) :
    lastIndexOfChar c l = none ↔ c ∉ l := by
  induction l with
  | nil => simp [lastIndexOfChar]
  | cons x xs ih =>
    rw [lastIndexOfChar]
    rcases h : lastIndexOfChar c xs with _ | i
    · have hxs : c ∉ xs := ih.mp h
      by_cases hx : x = c
      · rw [if_pos hx]
        constructor
        · intro hcon
          cases hcon
        · intro hmem
          exact absurd (hx ▸ List.mem_cons_self x xs) hmem
      · rw [if_neg hx]
        constructor
        · intro _ hmem
          rcases List.mem_cons.mp hmem with hcx | hcxs
          · exact hx hcx.symm
          · exact hxs hcxs
        · intro _
          rfl
    · have hxs : c ∈ xs := by
        by_contra hnot
        rw [ih.mpr hnot] at h
        cases h
      constructor
      · intro hcon
        cases hcon
      · intro hmem
        exact absurd (List.mem_cons_of_mem x hxs) hmem

/-- A found last index points at the character and lies inside the list. -/
lemma lastIndexOfChar_get (c : Char) (l : Str) (i : Nat)
    (h : lastIndexOfChar c l = some i) : l.get? i = some c ∧ i < l.length := by
  induction l generalizing i with
  | nil => cases h
  | cons x xs ih =>
    rw [lastIndexOfChar] at h
    rcases hr : lastIndexOfChar c xs with _ | j
    · rw [hr] at h
      by_cases hx : x = c
      · rw [if_pos hx] at h
        cases h
        exact ⟨by simp [hx], by simp⟩
      · rw [if_neg hx] at h
        cases h
    · rw [hr] at h
      cases h
      obtain ⟨h1, h2⟩ := ih j hr
      exact ⟨by simpa using h1, by simpa using h2⟩

/-- C7 (amended): for content longer than the ceiling whose first maxChars
characters contain a space, the cut falls at a word boundary (the kept
prefix of the content ends right before a space) and the output stays
within ceiling plus notice; the length bound holds for every content, but
a spaceless prefix is instead cut mid-word (see the counterexample). -/
theorem truncationBoundaryAmended (content : Str) (maxChars : Nat)
    (hlen : maxChars < content.length) :
    ((∃ j, j < maxChars ∧ content.get? j = some ' ') →
      CutAtWordBoundary content (truncateContent content maxChars))
    ∧ (truncateContent content maxChars).length ≤ maxChars + TRUNC_NOTICE.length := by
  have hnotle : ¬ content.length ≤ maxChars := by omega
  rw [truncateContent, if_neg hnotle]
  rcases hL : lastIndexOfChar ' ' (content.take maxChars) with _ | i
  · simp only [hL]
    constructor
    · rintro ⟨j, hj, hsp⟩
      exfalso
      have hjt : (content.take maxChars).get? j = some ' ' := by
        rw [List.get?_eq_getElem?, List.getElem?_take, if_pos hj, ← List.get?_eq_getElem?]
        exact hsp
      exact (lastIndexOfChar_eq_none _ _).mp hL (List.get?_mem hjt)
    · simp only [List.length_append, List.length_take]
      omega
  · simp only [hL]
    obtain ⟨hget, hlt⟩ := lastIndexOfChar_get _ _ _ hL
    have hlen_tr : (content.take maxChars).length = maxChars := by
      simp only [List.length_take]
      omega
    have hi : i < maxChars := by omega
    constructor
    · intro _
      refine ⟨i, by omega, ?_, Or.inr ?_⟩
      · rw [List.take_take]
        have hmin : i ⊓ maxChars = i := by omega
        rw [hmin]
      · rw [List.get?_eq_getElem?, List.getElem?_take, if_pos hi,
          ← List.get?_eq_getElem?] at hget
        exact hget
    · simp only [List.length_append, List.length_take]
      omega

/-- Witness for the amended C7: cutting "HELLO WORLD AGAIN" at 13 keeps the
complete words before the last in-ceiling space. -/
theorem truncationBoundaryAmended_witness :
    CutAtWordBoundary (("HELLO WORLD AGAIN").data)
      (truncateContent (("HELLO WORLD AGAIN").data) 13)
    ∧ (truncateContent (("HELLO WORLD AGAIN").data) 13).length
        ≤ 13 + TRUNC_NOTICE.length := by
  have h := truncationBoundaryAmended (("HELLO WORLD AGAIN").data) 13 (by decide)
  exact ⟨h.1 ⟨5, by decide, by decide⟩, h.2⟩

/-- C7 counterexample: spaceless content one character over the configured
ceiling is cut mid-word: lastIndexOf finds no space, slice(0, -1) keeps all
but one character of the truncated prefix, and no word boundary justifies
the kept prefix. -/
theorem truncationBoundaryCounterexample :
    MAX_ARTICLE_CHARS < spacelessContent.length
    ∧ ¬ CutAtWordBoundary spacelessContent
        (truncateContent spacelessContent MAX_ARTICLE_CHARS) := by
  have hM : MAX_ARTICLE_CHARS = 24000 := rfl
  have hlen : spacelessContent.length = MAX_ARTICLE_CHARS + 1 := by
    simp [spacelessContent]
  have hmin1 : MAX_ARTICLE_CHARS ⊓ (MAX_ARTICLE_CHARS + 1) = MAX_ARTICLE_CHARS := by
    omega
  have htr : spacelessContent.take MAX_ARTICLE_CHARS =
      List.replicate MAX_ARTICLE_CHARS 'a' := by
    rw [spacelessContent, List.take_replicate, hmin1]
  have hnone : lastIndexOfChar ' ' (spacelessContent.take MAX_ARTICLE_CHARS) = none := by
    rw [htr, lastIndexOfChar_eq_none]
    intro hmem
    have := List.eq_of_mem_replicate hmem
    cases this
  have hcond : ¬ spacelessContent.length ≤ MAX_ARTICLE_CHARS := by
    rw [hlen]
    omega
  have hout : truncateContent spacelessContent MAX_ARTICLE_CHARS =
      List.replicate (MAX_ARTICLE_CHARS - 1) 'a' ++ TRUNC_NOTICE := by
    rw [truncateContent, if_neg hcond]
    simp only [hnone]
    rw [htr, List.length_replicate, List.take_replicate]
    have : (MAX_ARTICLE_CHARS - 1) ⊓ MAX_ARTICLE_CHARS = MAX_ARTICLE_CHARS - 1 := by
      omega
    rw [this]
  refine ⟨by omega, ?_⟩
  rintro ⟨i, hle, heq, hb⟩
  rw [hout] at heq
  have htake : spacelessContent.take i = List.replicate (MAX_ARTICLE_CHARS - 1) 'a' :=
    (List.append_cancel_right heq).symm
  have hlen2 : i ⊓ (MAX_ARTICLE_CHARS + 1) = MAX_ARTICLE_CHARS - 1 := by
    have hc := congrArg List.length htake
    simpa [spacelessContent, List.length_take] using hc
  have hi : i = MAX_ARTICLE_CHARS - 1 := by omega
  rcases hb with h0 | hsp
  · omega
  · rw [hi, spacelessContent, List.get?_eq_getElem?, List.getElem?_replicate,
      if_pos (by omega)] at hsp
    cases hsp

/-- With oracles that never signal alignment, the alignment loop runs out
its budget and synthesizes the two current interpretations. -/
lemma interpGo_noAlign (N : Nat) (dOr cOr : Nat → Str)
    (hD : ∀ n, isAligned (dOr n) = false) (hC : ∀ n, isAligned (cOr n) = false) :
    ∀ fuel round dIdx cIdx gpt claude, N - round = fuel →
      ∃ g c dI cI, interpGo N false dOr cOr dIdx cIdx gpt claude round =
        (.ok ⟨false, combineInterpretations g c, g, c, N⟩, dI, cI) := by
  intro fuel
  induction fuel using Nat.strong_induction_on with
  | _ fuel ih =>
    intro round dIdx cIdx gpt claude hfuel
    rw [interpGo]
    by_cases hr : round < N
    · rw [dif_pos hr]
      by_cases hr2 : round + 1 ≥ N
      · simp only [hC cIdx, Bool.false_eq_true, if_false, if_pos hr2]
        exact ⟨gpt, cOr cIdx, dIdx, cIdx + 1, rfl⟩
      · simp only [hC cIdx, hD dIdx, Bool.false_eq_true, if_false, if_neg hr2]
        exact ih (N - (round + 2)) (by omega) (round + 2) (dIdx + 1) (cIdx + 1)
          (dOr dIdx) (cOr cIdx) rfl
    · rw [dif_neg hr]
      exact ⟨gpt, claude, dIdx, cIdx, rfl⟩

/-- With a critic that never approves, the refinement loop runs out its
budget: N critiques, N - 1 revisions, the notes of the last revision, and
no revision after the final round increment. -/
lemma refineGo_noApprove (N : Nat) (dOr cOr : Nat → Str)
    (hC : ∀ n, parseCritiqueStatus (cOr n) = .needs_work) :
    ∀ fuel round transcript, N - round = fuel → round < N →
      ∃ T, refineGo N false dOr cOr (round + 1) round (dOr round)
          (parse (dOr round)) transcript round =
        (.ok ⟨parse (dOr (N - 1)), N, false, T⟩, N, N) := by
  intro fuel
  induction fuel using Nat.strong_induction_on with
  | _ fuel ih =>
    intro round transcript hfuel hlt
    rw [refineGo, dif_pos hlt]
    by_cases hr2 : round + 1 ≥ N
    · have hround : round = N - 1 := by omega
      have hN : round + 1 = N := by omega
      simp only [hC round, Bool.false_eq_true, if_false, if_pos hr2]
      refine ⟨transcript ++ [⟨REFINEMENT_TAG, CRITIC_TAG, CRITIQUE_TAG, cOr round,
        round + 1⟩], ?_⟩
      rw [hround] at *
      rw [hN]
      simp
    · simp only [hC round, Bool.false_eq_true, if_false, if_neg hr2]
      exact ih (N - (round + 1)) (by omega) (round + 1) _ rfl (by omega)

/-- C3: for any maxRounds = N >= 1, when no response is ever classified as
aligned or approved/marginal, the interpretation phase terminates with
rounds = N, aligned = false, and a non-null synthesized interpretation of
its two final interpretations, and the refinement loop terminates with
rounds = N, approved = false, the notes parsed from the last draft, and
exactly N drafter and N critic calls: the final round increment exits the
loop without a further revision request. -/
theorem roundBudgetTermination (N : Nat) (dOrI cOrI dOrR cOrR : Nat → Str)
    (article : ExtractedArticle) (hN : 1 ≤ N)
    (hDI : ∀ n, isAligned (dOrI n) = false) (hCI : ∀ n, isAligned (cOrI n) = false)
    (hCR : ∀ n, parseCritiqueStatus (cOrR n) = .needs_work) :
    (∃ g c dI cI, interpRun N false dOrI cOrI article =
        (.ok ⟨false, combineInterpretations g c, g, c, N⟩, dI, cI)
      ∧ combineInterpretations g c ≠ [])
    ∧ (∃ T, refineRun N false dOrR cOrR =
        (.ok ⟨parse (dOrR (N - 1)), N, false, T⟩, N, N)) := by
  constructor
  · obtain ⟨g, c, dI, cI, h⟩ := interpGo_noAlign N dOrI cOrI hDI hCI (N - 1) 1 1 1
      (dOrI 0) (cOrI 0) rfl
    refine ⟨g, c, dI, cI, ?_, ?_⟩
    · rw [interpRun]
      simpa using h
    · simp [combineInterpretations, SYNTH_HEADER]
  · obtain ⟨T, h⟩ := refineGo_noApprove N dOrR cOrR hCR N 0
      [⟨REFINEMENT_TAG, DRAFTER_TAG, DRAFT_TAG, dOrR 0, 1⟩] (by omega) (by omega)
    refine ⟨T, ?_⟩
    rw [refineRun]
    simpa using h

/-- Witness for C3 at N = 1 with constant never-signalling oracles. -/
theorem roundBudgetTermination_witness :
    (∃ g c dI cI,
      interpRun 1 false (fun _ => ("We read the thesis differently.").data)
          (fun _ => ("Our readings still disagree.").data) SCENARIO_ARTICLE =
        (.ok ⟨false, combineInterpretations g c, g, c, 1⟩, dI, cI)
      ∧ combineInterpretations g c ≠ [])
    ∧ (∃ T, refineRun 1 false (fun _ => ("### A note\nDraft body text.").data)
          (fun _ => ("The second note still lacks a link.").data) =
        (.ok ⟨parse ((fun (_ : Nat) => ("### A note\nDraft body text.").data) 0),
          1, false, T⟩, 1, 1)) := by
  exact roundBudgetTermination 1 (fun _ => ("We read the thesis differently.").data)
    (fun _ => ("Our readings still disagree.").data)
    (fun _ => ("### A note\nDraft body text.").data)
    (fun _ => ("The second note still lacks a link.").data)
    SCENARIO_ARTICLE (by omega)
    (fun n => show isAligned (("We read the thesis differently.").data) = false by decide)
    (fun n => show isAligned (("Our readings still disagree.").data) = false by decide)
    (fun n => show parseCritiqueStatus (("The second note still lacks a link.").data)
      = .needs_work by decide)

/-- splitLinesKeep never returns an empty list of lines. -/
lemma splitLinesKeep_ne_nil (s : Str) : splitLinesKeep s ≠ [] := by
  cases s with
  | nil => simp [splitLinesKeep]
  | cons c rest =>
    rw [splitLinesKeep]
    by_cases h : c = '\n'
    · simp [h]
    · rcases hr : splitLinesKeep rest with _ | ⟨l, ls⟩ <;> simp [h, hr]

/-- Concatenating the kept lines restores the string. -/
lemma splitLinesKeep_flatten (s : Str) : (splitLinesKeep s).flatten = s := by
  induction s with
  | nil => simp [splitLinesKeep]
  | cons c rest ih =>
    rw [splitLinesKeep]
    by_cases h : c = '\n'
    · simp [h, ih]
    · rcases hr : splitLinesKeep rest with _ | ⟨l, ls⟩
      · exact absurd hr (splitLinesKeep_ne_nil rest)
      · rw [hr] at ih
        simp only [if_neg h, List.flatten_cons]
        rw [List.cons_append, ← List.flatten_cons, ih]

/-- Grouping lines into sections preserves the concatenation. -/
lemma groupSectionsAux_flatten (ls : List Str) : ∀ acc,
    (groupSectionsAux acc ls).flatten = acc ++ ls.flatten := by
  induction ls with
  | nil => intro acc; simp [groupSectionsAux]
  | cons l ls ih =>
    intro acc
    rw [groupSectionsAux]
    by_cases h : isSectionStart l = true
    · simp [h, ih]
    · simp [h, ih, List.append_assoc]

/-- The sections concatenate back to the original text. -/
lemma splitSections_flatten (s : Str) : (splitSections s).flatten = s := by
  rw [splitSections]
  rcases hr : splitLinesKeep s with _ | ⟨l, ls⟩
  · exact absurd hr (splitLinesKeep_ne_nil s)
  · have := splitLinesKeep_flatten s
    rw [hr] at this
    rw [groupSectionsAux_flatten]
    simpa using this

/-- Trimming yields an infix of the original string. -/
lemma trimJS_within (s : Str) : trimJS s <:+: s := by
  have h1 : s.dropWhile isSpaceJS <:+ s := List.dropWhile_suffix isSpaceJS
  have h2 : (s.dropWhile isSpaceJS).reverse.dropWhile isSpaceJS <:+
      (s.dropWhile isSpaceJS).reverse := List.dropWhile_suffix isSpaceJS
  have h3 : trimJS s <+: s.dropWhile isSpaceJS := by
    rw [trimJS]
    have := List.reverse_prefix.mpr h2
    simpa using this
  exact (h3.isInfix).trans h1.isInfix

/-- A needle that is an infix of the hay is reported by containsSubstr. -/
lemma containsSubstr_of_within (needle hay : Str) (h : needle <:+: hay) :
    containsSubstr needle hay = true := by
  obtain ⟨t, hp, hs⟩ := List.infix_iff_prefix_suffix.mp h
  rw [containsSubstr, List.any_eq_true]
  exact ⟨t, (List.mem_tails t hay).mpr hs, List.isPrefixOf_iff_prefix.mpr hp⟩

/-- Every section is an infix of the parsed text. -/
lemma section_infix_of_mem (s t : Str) (h : t ∈ splitSections s) : t <:+: s := by
  have := List.infix_of_mem_flatten h
  rwa [splitSections_flatten] at this

/-- parseSection accepts only notes with nonempty heading and body, and its
link flag is the link regex test of the body. -/
lemma parseSection_some (s : Str) (n : AtomicNote) (h : parseSection s = some n) :
    n.heading ≠ [] ∧ n.content ≠ [] ∧ n.hasLink = linkTest n.content := by
  rw [parseSection] at h
  rcases hs : splitOnNl s with _ | ⟨hd, rest⟩
  · rw [hs] at h
    cases h
  · rcases rest with _ | ⟨r1, rrest⟩
    · rw [hs] at h
      cases h
    · rw [hs] at h
      simp only at h
      split_ifs at h with h1 h2
      injection h with h
      subst h
      exact ⟨h1, h2, rfl⟩

/-- Every note parse produces has a nonempty heading and body, with the
link flag derived from the body. -/
lemma parse_mem_inv (text : Str) (n : AtomicNote) (h : n ∈ parse text) :
    n.heading ≠ [] ∧ n.content ≠ [] ∧ n.hasLink = linkTest n.content := by
  rw [parse] at h
  obtain ⟨sec, _, hf⟩ := List.mem_filterMap.mp h
  by_cases hp : H3_MARKER.isPrefixOf (trimJS sec) = true
  · rw [if_pos hp] at hf
    exact parseSection_some _ _ hf
  · rw [if_neg hp] at hf
    cases hf

/-- Completeness of the url part of the matcher. -/
lemma closeAux_complete (c d : Str) (hc : ∀ ch ∈ c, isDotExcluded ch = false) :
    closeAux (c ++ ')' :: d) = true := by
  induction c with
  | nil => simp [closeAux]
  | cons x xs ih =>
    rw [List.cons_append]
    simp only [closeAux]
    have hx := hc x (List.mem_cons_self x xs)
    have hr := ih (fun ch hch => hc ch (List.mem_cons_of_mem x hch))
    simp [hx, hr]

/-- A nonempty single-line url part matches after "](". -/
lemma closeScan_complete (c d : Str) (hne : c ≠ [])
    (hc : ∀ ch ∈ c, isDotExcluded ch = false) :
    closeScan (c ++ ')' :: d) = true := by
  rcases c with _ | ⟨x, xs⟩
  · exact absurd rfl hne
  · rw [List.cons_append]
    simp only [closeScan]
    have hx := hc x (List.mem_cons_self x xs)
    have hr := closeAux_complete xs d (fun ch hch => hc ch (List.mem_cons_of_mem x hch))
    simp [hx, hr]

/-- A nonempty single-line anchor followed by "](" and a matching url part
matches after "[". -/
lemma midScan_complete (b c d : Str) (hb : ∀ ch ∈ b, isDotExcluded ch = false)
    (hcne : c ≠ []) (hc : ∀ ch ∈ c, isDotExcluded ch = false) :
    midScan (b ++ ']' :: '(' :: (c ++ ')' :: d)) = true := by
  induction b with
  | nil =>
    simp only [List.nil_append, midScan, startParenClose]
    simp [closeScan_complete c d hcne hc]
  | cons x xs ih =>
    rw [List.cons_append]
    simp only [midScan]
    have hx := hb x (List.mem_cons_self x xs)
    have hr := ih (fun ch hch => hb ch (List.mem_cons_of_mem x hch))
    simp [hx, hr]

/-- Completeness of the link matcher: a markdown-style link occurrence is
reported by the regex test. -/
lemma linkTest_complete (s : Str) (h : ContainsMarkdownLink s) :
    linkTest s = true := by
  obtain ⟨a, b, c, d, heq, hbne, hcne, hb, hc⟩ := h
  rw [linkTest, List.any_eq_true]
  refine ⟨'[' :: (b ++ ']' :: '(' :: (c ++ ')' :: d)), ?_, ?_⟩
  · rw [List.mem_tails, heq]
    exact List.suffix_append a _
  · show openScan (b ++ ']' :: '(' :: (c ++ ')' :: d)) = true
    rcases b with _ | ⟨x, xs⟩
    · exact absurd rfl hbne
    · rw [List.cons_append]
      simp only [openScan]
      have hx := hb x (List.mem_cons_self x xs)
      have hr := midScan_complete xs c d
        (fun ch hch => hb ch (List.mem_cons_of_mem x hch)) hcne hc
      simp [hx, hr]

/-- C9: parse of the empty string is empty; parse of text containing no
"###" marker anywhere is empty; every produced note has a nonempty heading
and a nonempty body (segments with an empty body are dropped); and every
produced note whose body contains a markdown-style link has hasLink set. -/
theorem parserRobustness :
    parse [] = []
    ∧ (∀ text : Str, containsSubstr H3_MARKER text = false → parse text = [])
    ∧ (∀ text : Str, ∀ note ∈ parse text, note.heading ≠ [] ∧ note.content ≠ [])
    ∧ (∀ text : Str, ∀ note ∈ parse text,
        ContainsMarkdownLink note.content → note.hasLink = true) := by
  refine ⟨by decide, ?_, ?_, ?_⟩
  · intro text hno
    rw [parse, List.filterMap_eq_nil_iff]
    intro sec hsec
    by_cases hp : H3_MARKER.isPrefixOf (trimJS sec) = true
    · exfalso
      have hpre : H3_MARKER <+: trimJS sec := List.isPrefixOf_iff_prefix.mp hp
      have hinf : H3_MARKER <:+: text :=
        (hpre.isInfix.trans (trimJS_within sec)).trans (section_infix_of_mem text sec hsec)
      rw [containsSubstr_of_within _ _ hinf] at hno
      cases hno
    · rw [if_neg hp]
  · intro text note h
    exact ⟨(parse_mem_inv text note h).1, (parse_mem_inv text note h).2.1⟩
  · intro text note h hlink
    rw [(parse_mem_inv text note h).2.2]
    exact linkTest_complete note.content hlink

/-- Witness for C9 on concrete inputs: a markerless text parses to nothing,
and the note parsed from a well-formed section has a nonempty heading and
body and carries the link flag. -/
theorem parserRobustness_witness :
    parse (("plain text with no markers at all").data) = []
    ∧ ((("Good heading").data ≠ []) ∧ (("Body with [a](b) link.").data ≠ []))
    ∧ (AtomicNote.mk (("Good heading").data) (("Body with [a](b) link.").data) true
        (("### Good heading\nBody with [a](b) link.").data)).hasLink = true := by
  refine ⟨?_, ?_, ?_⟩
  · exact parserRobustness.2.1 (("plain text with no markers at all").data) (by decide)
  · exact parserRobustness.2.2.1 (("### Good heading\nBody with [a](b) link.").data)
      (AtomicNote.mk (("Good heading").data) (("Body with [a](b) link.").data) true
        (("### Good heading\nBody with [a](b) link.").data)) (by decide)
  · exact parserRobustness.2.2.2 (("### Good heading\nBody with [a](b) link.").data)
      (AtomicNote.mk (("Good heading").data) (("Body with [a](b) link.").data) true
        (("### Good heading\nBody with [a](b) link.").data)) (by decide)
      ⟨("Body with ").data, ("a").data, ("b").data, (" link.").data,
       by decide, by decide, by decide, by decide, by decide⟩
